import Mathlib

/-!
Verification development for two anaconda modules:

* `pyanaconda/modules/payloads/payloads.py` — the `PayloadsService` payload
  registry (a list of created payload modules, one optional active module,
  kickstart processing / setup / generation).
* `pyanaconda/ui/gui/__init__.py` — the `GraphicalUserInterface` wizard
  action sequencer (`run`, `_instantiateAction`, `_on_continue_clicked`).

Python objects and heap references are embedded as follows: the payload
modules created by the service live in an append-only arena (the
`created_payloads` list itself), and object references to them are arena
indices.  Signal emissions and cross-object calls that the claims observe
are recorded in explicit event traces.
-/

/-! ## Payload registry service (`payloads.py`) -/

/-- Modelled from the spec: the `PayloadType` enum
(`pyanaconda.modules.payloads.constants`, not under `src/`); the spec
enumerates "package-based (DNF), live-image, etc.".  Only `DNF` is referred
to by name in `payloads.py`. -/
inductive PayloadType
  | DNF
  | LIVE_IMAGE
  | LIVE_OS
deriving DecidableEq

/-- Abstract identifier of a parsed-kickstart data object (`data` handler
objects are opaque collaborators of `payloads.py`). -/
abbrev KSData := Nat

/-- A created payload module.  `type` is its immutable payload type; the
`processed` and `setups` lists record the kickstart data objects that were
forwarded into the module via its `process_kickstart` and `setup_kickstart`
methods (the bodies of those methods belong to the individual payload
classes, which are outside `payloads.py`; the model records the forwarded
data, which is all the claims observe). -/
structure PayloadModule where
  type : PayloadType
  processed : List KSData
  setups : List KSData
deriving DecidableEq

/-- Observable events of the payload service: signal emissions
(`created_payloads_changed.emit(module)`, `active_payload_changed.emit()`)
and the forwarding calls into a payload module, with the module's arena
index. -/
inductive PEvt
  | created_changed (idx : Nat)
  | forwarded (idx : Nat) (d : KSData)
  | active_changed
  | setup_forwarded (idx : Nat) (d : KSData)
deriving DecidableEq

/-- State of `PayloadsService`: `self._created_payloads` (the arena of
module objects, in creation order), `self._active_payload` (a reference,
modelled as an arena index, or `none`), and the event trace. -/
structure PayloadsService where
  created_payloads : List PayloadModule
  active_payload : Option Nat
  trace : List PEvt
deriving DecidableEq

/-- Fresh service, as built by `PayloadsService.__init__`:
no created payloads, no active payload. -/
def PayloadsService.initial : PayloadsService :=
  { created_payloads := [], active_payload := none, trace := [] }

/-- Modelled from the spec: `PayloadFactory.create_payload`
(`payload/factory.py`, not under `src/`) is a type-keyed factory that
constructs a new payload module of the requested type. -/
def PayloadFactory.create_payload (t : PayloadType) : PayloadModule :=
  { type := t, processed := [], setups := [] }

/-- In-place update of the arena entry at index `i` (Python mutates the
module object through the shared reference). -/
def listUpdate {α : Type} (i : Nat) (f : α → α) : List α → List α
  | [] => []
  | x :: xs =>
    match i with
    | 0 => f x :: xs
    | Nat.succ j => x :: listUpdate j f xs

/-- `PayloadsService._add_created_payload`: append the module to
`self._created_payloads` and emit `created_payloads_changed`. -/
def PayloadsService.add_created_payload (s : PayloadsService) (p : PayloadModule) :
    PayloadsService :=
  { s with
    created_payloads := s.created_payloads ++ [p],
    trace := s.trace ++ [PEvt.created_changed s.created_payloads.length] }

/-- `PayloadsService.create_payload`: build the module via the factory,
register it with `_add_created_payload`, return it (the returned reference
is the new arena index). -/
def PayloadsService.create_payload (s : PayloadsService) (t : PayloadType) :
    PayloadsService × Nat :=
  let p := PayloadFactory.create_payload t
  (s.add_created_payload p, s.created_payloads.length)

/-- `PayloadsService.activate_payload`: set `self._active_payload` and emit
`active_payload_changed`. -/
def PayloadsService.activate_payload (s : PayloadsService) (i : Nat) :
    PayloadsService :=
  { s with active_payload := some i, trace := s.trace ++ [PEvt.active_changed] }

/-- Modelled from the spec: `payload_module.process_kickstart(data)` — the
payload module's own kickstart parsing (outside `payloads.py`); the model
records the data forwarded into module `i`. -/
def PayloadsService.forward_process_kickstart (s : PayloadsService) (i : Nat)
    (d : KSData) : PayloadsService :=
  { s with
    created_payloads :=
      listUpdate i (fun m => { m with processed := m.processed ++ [d] })
        s.created_payloads,
    trace := s.trace ++ [PEvt.forwarded i d] }

/-- `PayloadsService.process_kickstart`, parametrised by
`PayloadFactory.get_type_for_kickstart` (modelled from the spec as an
abstract inspection `detect` of the data, since `payload/factory.py` is not
under `src/`).  Source order: create the payload, forward the data into it,
then activate it; if no type is determined, fall through (no-op). -/
def PayloadsService.process_kickstart (detect : KSData → Option PayloadType)
    (s : PayloadsService) (d : KSData) : PayloadsService :=
  match detect d with
  | none => s
  | some t =>
    let created := s.create_payload t
    let s2 := created.1.forward_process_kickstart created.2 d
    s2.activate_payload created.2

/-- `PayloadsService.setup_kickstart`: forward to the active payload if one
is set (`if self.active_payload:`), otherwise do nothing. -/
def PayloadsService.setup_kickstart (s : PayloadsService) (d : KSData) :
    PayloadsService :=
  match s.active_payload with
  | none => s
  | some i =>
    { s with
      created_payloads :=
        listUpdate i (fun m => { m with setups := m.setups ++ [d] })
          s.created_payloads,
      trace := s.trace ++ [PEvt.setup_forwarded i d] }

/-- Dereference `self.active_payload` (the arena index) to the module
object.  For every state reachable through the service API the index is in
range. -/
def PayloadsService.activeModule (s : PayloadsService) : Option PayloadModule :=
  match s.active_payload with
  | none => none
  | some i => s.created_payloads.get? i

/-- Modelled from the spec: the inherited `KickstartService.generate_kickstart`
(`modules/common/base`, not under `src/`) builds a fresh handler data
object, runs the service's (overridden) `setup_kickstart` on it, and
serialises it; `serialize` stands for the opaque serialisation. -/
def super_generate_kickstart (serialize : PayloadsService → KSData → String)
    (freshData : KSData) (s : PayloadsService) : String × PayloadsService :=
  let s2 := s.setup_kickstart freshData
  (serialize s2 freshData, s2)

/-- `PayloadsService.generate_kickstart`:
`if self.active_payload and self.active_payload.type != PayloadType.DNF:
return ""` else `return super().generate_kickstart()`. -/
def PayloadsService.generate_kickstart (serialize : PayloadsService → KSData → String)
    (freshData : KSData) (s : PayloadsService) : String × PayloadsService :=
  match s.activeModule with
  | some m =>
    if m.type ≠ PayloadType.DNF then ("", s)
    else super_generate_kickstart serialize freshData s
  | none => super_generate_kickstart serialize freshData s

/-- A sequence of `create_payload` calls (return values discarded). -/
def create_many (s : PayloadsService) : List PayloadType → PayloadsService
  | [] => s
  | t :: ts => create_many (s.create_payload t).1 ts

/-- First event-index of `e` in a trace (length of the trace when absent). -/
def idxOfEvt (e : PEvt) : List PEvt → Nat
  | [] => 0
  | x :: xs => if x = e then 0 else idxOfEvt e xs + 1

/-- A concrete detector: every data object is recognised as DNF-typed. -/
def detectDNF : KSData → Option PayloadType := fun _ => some PayloadType.DNF

/-- A concrete serialiser for witnesses. -/
def ser0 : PayloadsService → KSData → String := fun _ _ => ""

theorem create_many_created (ts : List PayloadType) :
    ∀ s : PayloadsService,
      (create_many s ts).created_payloads
        = s.created_payloads ++ ts.map PayloadFactory.create_payload := by
  induction ts with
  | nil => intro s; simp [create_many]
  | cons t ts ih =>
    intro s
    simp [create_many, ih, PayloadsService.create_payload,
      PayloadsService.add_created_payload]

/-- C1: every sequence of `createPayload` calls on a fresh registry leaves
`createdPayloads` with exactly one entry per call, the factory-built
descriptors in call order; each call appends its descriptor at the end, and
duplicate types are simply appended again (no error path exists). -/
theorem createPayload_appends_in_order (ts : List PayloadType) :
    (create_many PayloadsService.initial ts).created_payloads
        = ts.map PayloadFactory.create_payload
      ∧ (create_many PayloadsService.initial ts).created_payloads.length
        = ts.length
      ∧ ∀ (s : PayloadsService) (t : PayloadType),
          ((s.create_payload t).1).created_payloads
            = s.created_payloads ++ [PayloadFactory.create_payload t] := by
  refine ⟨?_, ?_, ?_⟩
  · simp [create_many_created, PayloadsService.initial]
  · simp [create_many_created, PayloadsService.initial]
  · intro s t
    simp [PayloadsService.create_payload, PayloadsService.add_created_payload]

/-- C3: with an active payload whose type is not DNF, `generate_kickstart`
returns the empty string (and touches nothing); with an active DNF payload
it delegates to the inherited generation. -/
theorem generate_kickstart_dnf_gate (serialize : PayloadsService → KSData → String)
    (freshData : KSData) (s : PayloadsService) (m : PayloadModule)
    (h : s.activeModule = some m) :
    (m.type ≠ PayloadType.DNF →
        s.generate_kickstart serialize freshData = ("", s))
      ∧ (m.type = PayloadType.DNF →
        s.generate_kickstart serialize freshData
          = super_generate_kickstart serialize freshData s) := by
  constructor
  · intro hne
    simp [PayloadsService.generate_kickstart, h, hne]
  · intro heq
    simp [PayloadsService.generate_kickstart, h, heq]

/-- A live-image payload module, used as concrete input. -/
def mLive : PayloadModule :=
  { type := PayloadType.LIVE_IMAGE, processed := [], setups := [] }

/-- A service whose single created payload is live-image typed and active. -/
def sLive : PayloadsService :=
  { created_payloads := [mLive], active_payload := some 0, trace := [] }

/-- Witness for C3 at a concrete input: a registry whose active payload is
a live-image module short-circuits generation to the empty string. -/
theorem generate_kickstart_dnf_gate_witness :
    sLive.activeModule = some mLive
      ∧ sLive.generate_kickstart ser0 0 = ("", sLive) := by
  refine ⟨rfl, ?_⟩
  exact (generate_kickstart_dnf_gate ser0 0 sLive mLive rfl).1 (by decide)

/-- C4: with no active payload, `setup_kickstart` and `generate_kickstart`
leave the service state (registry, active pointer and event trace)
completely unchanged: no error is raised and nothing is forwarded to any
payload module (every forwarding appends a trace event, so trace equality
rules it out). -/
theorem no_active_payload_noop (serialize : PayloadsService → KSData → String)
    (freshData d : KSData) (s : PayloadsService)
    (h : s.active_payload = none) :
    s.setup_kickstart d = s
      ∧ (s.generate_kickstart serialize freshData).2 = s := by
  have hsetup : ∀ e : KSData, s.setup_kickstart e = s := by
    intro e
    simp [PayloadsService.setup_kickstart, h]
  refine ⟨hsetup d, ?_⟩
  simp [PayloadsService.generate_kickstart, PayloadsService.activeModule, h,
    super_generate_kickstart, hsetup]

/-- Witness for C4 at a concrete input: the fresh service. -/
theorem no_active_payload_noop_witness :
    PayloadsService.initial.setup_kickstart 0 = PayloadsService.initial
      ∧ (PayloadsService.initial.generate_kickstart ser0 0).2
        = PayloadsService.initial :=
  no_active_payload_noop ser0 0 0 PayloadsService.initial rfl

/-- Counterexample for C5: the claim states that `processKickstart` creates
a payload, activates it, and THEN forwards the configuration data into it.
On the concrete input (fresh service, data recognised as DNF) the source
performs the calls in the order create — forward — activate: in the emitted
trace the forwarding call comes strictly before `active_payload_changed`,
so the activation event does not precede the forwarding call as the claim
states. -/
theorem process_kickstart_activation_order_counterexample :
    (PayloadsService.process_kickstart detectDNF PayloadsService.initial 0).trace
        = [PEvt.created_changed 0, PEvt.forwarded 0 0, PEvt.active_changed]
      ∧ ¬ (idxOfEvt PEvt.active_changed
            (PayloadsService.process_kickstart detectDNF
              PayloadsService.initial 0).trace
          < idxOfEvt (PEvt.forwarded 0 0)
            (PayloadsService.process_kickstart detectDNF
              PayloadsService.initial 0).trace) := by
  decide

theorem listUpdate_append {α : Type} (l : List α) (a : α) (f : α → α) :
    listUpdate l.length f (l ++ [a]) = l ++ [f a] := by
  induction l with
  | nil => rfl
  | cons x xs ih => simp [listUpdate, ih]

/-- C5 (amended): `processKickstart(data)`: if a payload type is determined
from the parsed configuration, it creates a payload of that type, forwards
the same configuration data into that payload for further parsing, and then
activates it (in this order); if no type is recognised it is a no-op,
leaving registry, active payload and trace unchanged. -/
theorem process_kickstart_amended (detect : KSData → Option PayloadType)
    (s : PayloadsService) (d : KSData) :
    (∀ t : PayloadType, detect d = some t →
        PayloadsService.process_kickstart detect s d
          = { created_payloads := s.created_payloads
                ++ [{ type := t, processed := [d], setups := [] }],
              active_payload := some s.created_payloads.length,
              trace := s.trace
                ++ [PEvt.created_changed s.created_payloads.length,
                    PEvt.forwarded s.created_payloads.length d,
                    PEvt.active_changed] })
      ∧ (detect d = none →
        PayloadsService.process_kickstart detect s d = s) := by
  constructor
  · intro t h
    simp [PayloadsService.process_kickstart, h,
      PayloadsService.create_payload, PayloadsService.add_created_payload,
      PayloadsService.forward_process_kickstart,
      PayloadsService.activate_payload, PayloadFactory.create_payload,
      listUpdate_append]
  · intro h
    simp [PayloadsService.process_kickstart, h]

/-- The DNF module holding the processed data object `0`. -/
def mDNF0 : PayloadModule :=
  { type := PayloadType.DNF, processed := [0], setups := [] }

/-- Witness for C5 (amended) at a concrete input. -/
theorem process_kickstart_amended_witness :
    detectDNF 0 = some PayloadType.DNF
      ∧ PayloadsService.process_kickstart detectDNF PayloadsService.initial 0
        = { created_payloads := [mDNF0],
            active_payload := some 0,
            trace := [PEvt.created_changed 0, PEvt.forwarded 0 0,
              PEvt.active_changed] } := by
  refine ⟨rfl, ?_⟩
  have h := (process_kickstart_amended detectDNF PayloadsService.initial 0).1
    PayloadType.DNF rfl
  simpa [PayloadsService.initial] using h

/-! ## Wizard navigation sequencer (`ui/gui/__init__.py`)

The action list `self._actions` holds CLASSES (loaded by
`getActionClasses`; `_instantiateAction` calls `actionClass(self.data,
...)`), never instances.  An action class `K` is embedded as an
`ActionClass` record: `name` is `K.__name__`; `metaName` is
`K.__class__.__name__`, i.e. the name of the metaclass of `K` (for an
ordinary Python class this is the string "type"); the remaining fields
determine the behaviour of the instance `K(...)`: `standalone` is
`isinstance(obj, StandaloneSpoke)`, `completed` the instance's `completed`
property, `showable` its `showable` property, `mayContinue` the
`get_may_continue()` result consulted by the continue handler (the source
consults it on the window for the original signal and on the `GUIObject`
itself in the not-showable recursion; the model exposes it uniformly on
the record), and `skipTo` the instance's `skipTo` attribute. -/

structure ActionClass where
  name : String
  metaName : String
  standalone : Bool
  completed : Bool
  showable : Bool
  mayContinue : Bool
  skipTo : Option String
deriving DecidableEq

/-- Navigation state once navigation began: `self._currentAction` (the
instantiated current screen, identified by its class record) and
`self._actions` (the list of remaining action classes). -/
structure NavState where
  current : ActionClass
  actions : List ActionClass
deriving DecidableEq

/-- Observable side effects of the sequencer: `actionClass(...)`
constructor calls (also for instances that are discarded again),
`window.hide()` on a screen, and `mainWindow.setCurrentAction` (the screen
becomes the displayed one). -/
inductive UIEvent
  | instantiated (c : ActionClass)
  | hidden (c : ActionClass)
  | displayed (c : ActionClass)
deriving DecidableEq

/-- `_instantiateAction` returns `None` exactly when the freshly built
object is a standalone spoke that is already completed
(`if self._is_standalone(obj) and obj.completed: del(obj); return None`). -/
def declines (c : ActionClass) : Bool :=
  c.standalone && c.completed

/-- Linear scan of `_on_continue_clicked`'s skip-to loop: find the first
entry of the remaining list whose `__class__.__name__` (the METAclass
name, `metaName` — the source compares `self._actions[ndx].__class__.__name__`
although the entries are classes) equals the target, returning the suffix
of the list starting at that entry. -/
def findMatchSuffix (target : String) : List ActionClass → Option (List ActionClass)
  | [] => none
  | c :: cs =>
    if c.metaName = target then some (c :: cs) else findMatchSuffix target cs

/-- The skip-to collapse: `self._actions = [self._actions[0]] +
self._actions[ndx:]` when the scan over indices `1..` found a match;
unchanged otherwise. -/
def skipCollapse (target : String) : List ActionClass → List ActionClass
  | [] => []
  | a0 :: rest =>
    match findMatchSuffix target rest with
    | some suffix => a0 :: suffix
    | none => a0 :: rest

/-- The action list after the skip-to phase of `_on_continue_clicked`:
`if self._currentAction.skipTo:` (false for `None` and for the empty
string) guards the scan-and-collapse. -/
def afterSkip (st : NavState) : List ActionClass :=
  match st.current.skipTo with
  | none => st.actions
  | some t => if t.isEmpty then st.actions else skipCollapse t st.actions

/-- The instantiation loop of `_on_continue_clicked`, acting on the tail of
the action list (index 0, the current action, is never touched by it):
`self._actions[1]` is the head of the tail; a declined candidate is popped
(`self._actions.pop(1)`) and the loop retries; an empty tail means the next
access `self._actions[1]` raises IndexError.  The source's
`if not self._actions: sys.exit(0)` guard inside this loop is dead code:
index 0 is never popped here, so the list never becomes empty — the loop
over-indexes first.  Returns the surviving candidate together with the
tail starting at it, or `none` for the IndexError, plus the constructor
events. -/
def scanRest : List ActionClass → Option (ActionClass × List ActionClass) × List UIEvent
  | [] => (none, [])
  | c :: cs =>
    if declines c then
      let p := scanRest cs
      (p.1, UIEvent.instantiated c :: p.2)
    else (some (c, c :: cs), [UIEvent.instantiated c])

/-- Outcome of one body of `_on_continue_clicked` before any recursive
call: return with no effect (`get_may_continue` false), `Gtk.main_quit`
(last remaining action), an escaped IndexError, a completed advance to a
new state, or the tail recursion `self._on_continue_clicked(nextAction)`
of the not-showable branch (with the new signal source and the state at
that point). -/
inductive StepOut
  | noOp
  | terminated
  | indexError
  | advanced (st : NavState)
  | recursed (w : ActionClass) (st : NavState)
deriving DecidableEq

/-- Final outcome of `_on_continue_clicked` including recursion. -/
inductive ContinueResult
  | noOp
  | terminated
  | indexError
  | advanced (st : NavState)
deriving DecidableEq

/-- One body of `_on_continue_clicked` (lines 638-697), signal source
`win`: guard on `win.get_may_continue()`; quit if exactly one action
remains; skip-to phase; instantiation loop over the tail; then either the
not-showable branch (hide the current screen, `self._actions.pop(0)`,
recurse with the candidate — note the source does NOT reassign
`self._currentAction` there) or the normal advance (display the candidate,
make it current, `self._actions.pop(0)`). -/
def continueStep (win : ActionClass) (st : NavState) : StepOut × List UIEvent :=
  if win.mayContinue = false then (StepOut.noOp, [])
  else if st.actions.length = 1 then (StepOut.terminated, [])
  else
    match afterSkip st with
    | [] => (StepOut.indexError, [])
    | _a0 :: rest =>
      match scanRest rest with
      | (none, evs) => (StepOut.indexError, evs)
      | (some (cand, rem), evs) =>
        if cand.showable = false then
          (StepOut.recursed cand { current := st.current, actions := rem },
            evs ++ [UIEvent.hidden st.current])
        else
          (StepOut.advanced { current := cand, actions := rem },
            evs ++ [UIEvent.displayed cand])

/-- Fuel-indexed driver for `_on_continue_clicked`: runs `continueStep`
and follows `recursed` outcomes.  Every recursion strictly shortens the
action list (`pop(0)` precedes it and the other phases never lengthen the
list), so fuel `st.actions.length + 1` always suffices; `none` is the
out-of-fuel marker and is unreachable from the wrapper `runContinue`. -/
def runContinueF : Nat → ActionClass → NavState → Option (ContinueResult × List UIEvent)
  | 0, _, _ => none
  | Nat.succ n, win, st =>
    match continueStep win st with
    | (StepOut.noOp, evs) => some (ContinueResult.noOp, evs)
    | (StepOut.terminated, evs) => some (ContinueResult.terminated, evs)
    | (StepOut.indexError, evs) => some (ContinueResult.indexError, evs)
    | (StepOut.advanced st2, evs) => some (ContinueResult.advanced st2, evs)
    | (StepOut.recursed w2 st2, evs) =>
      match runContinueF n w2 st2 with
      | none => none
      | some (r, evs2) => some (r, evs ++ evs2)

/-- The complete `_on_continue_clicked` handler. -/
def runContinue (win : ActionClass) (st : NavState) :
    Option (ContinueResult × List UIEvent) :=
  runContinueF (st.actions.length + 1) win st

/-- Outcome of the navigation part of `GraphicalUserInterface.run`. -/
inductive RunResult
  | started (st : NavState)
  | returned
  | indexError
deriving DecidableEq

/-- The startup loop of `run` (lines 560-570 plus `setCurrentAction`):
`while not self._currentAction:` instantiate `self._actions[0]` (an empty
list raises IndexError on this access — the `if not self._actions: return`
guard runs only after a pop); a declined action is popped and, if the list
became empty, the method silently returns; a surviving instance stays at
index 0, becomes `self._currentAction` and is displayed. -/
def runStart : List ActionClass → RunResult × List UIEvent
  | [] => (RunResult.indexError, [])
  | c :: rest =>
    if declines c then
      match rest with
      | [] => (RunResult.returned, [UIEvent.instantiated c])
      | r :: rs =>
        let p := runStart (r :: rs)
        (p.1, UIEvent.instantiated c :: p.2)
    else
      (RunResult.started { current := c, actions := c :: rest },
        [UIEvent.instantiated c, UIEvent.displayed c])

/-! ### Structural lemmas about the sequencer -/

theorem findMatchSuffix_suffix (target : String) :
    ∀ l suf : List ActionClass,
      findMatchSuffix target l = some suf → suf <:+ l := by
  intro l
  induction l with
  | nil => intro suf h; simp [findMatchSuffix] at h
  | cons c cs ih =>
    intro suf h
    by_cases hc : c.metaName = target
    · simp only [findMatchSuffix, hc, if_pos] at h
      cases h
      exact List.suffix_refl _
    · simp only [findMatchSuffix, hc, if_neg, if_false] at h
      exact (ih suf h).trans (List.suffix_cons c cs)

theorem skipCollapse_sublist (target : String) (l : List ActionClass) :
    List.Sublist (skipCollapse target l) l := by
  cases l with
  | nil => simp [skipCollapse]
  | cons a0 rest =>
    cases hf : findMatchSuffix target rest with
    | some suffix =>
      simp only [skipCollapse, hf]
      exact ((findMatchSuffix_suffix target rest suffix hf).sublist).cons₂ a0
    | none =>
      simp only [skipCollapse, hf]
      exact List.Sublist.refl _

theorem afterSkip_sublist (st : NavState) :
    List.Sublist (afterSkip st) st.actions := by
  cases hs : st.current.skipTo with
  | none =>
    simp only [afterSkip, hs]
    exact List.Sublist.refl _
  | some t =>
    simp only [afterSkip, hs]
    by_cases ht : t.isEmpty
    · simp only [ht, if_true]
      exact List.Sublist.refl _
    · simp only [ht, if_false, Bool.false_eq_true]
      exact skipCollapse_sublist t st.actions

theorem scanRest_some :
    ∀ (l rem : List ActionClass) (cand : ActionClass) (evs : List UIEvent),
      scanRest l = (some (cand, rem), evs) →
      rem.head? = some cand ∧ rem <:+ l := by
  intro l
  induction l with
  | nil => intro rem cand evs h; simp [scanRest] at h
  | cons c cs ih =>
    intro rem cand evs h
    by_cases hc : declines c = true
    · rcases hp : scanRest cs with ⟨r1, evs1⟩
      simp only [scanRest, hc, if_true, hp] at h
      obtain ⟨h1, h2⟩ := Prod.mk.injEq .. ▸ h
      have hr := ih rem cand evs1 (by rw [hp, h1])
      exact ⟨hr.1, hr.2.trans (List.suffix_cons c cs)⟩
    · simp only [scanRest, hc, if_false, Bool.false_eq_true] at h
      obtain ⟨h1, h2⟩ := Prod.mk.injEq .. ▸ h
      cases h1
      exact ⟨rfl, List.suffix_refl _⟩

theorem scanRest_no_displayed :
    ∀ (l : List ActionClass) (r : Option (ActionClass × List ActionClass))
      (evs : List UIEvent),
      scanRest l = (r, evs) → ∀ c : ActionClass, UIEvent.displayed c ∉ evs := by
  intro l
  induction l with
  | nil =>
    intro r evs h c
    simp only [scanRest] at h
    obtain ⟨h1, h2⟩ := Prod.mk.injEq .. ▸ h
    simp [← h2]
  | cons x xs ih =>
    intro r evs h c
    by_cases hx : declines x = true
    · rcases hp : scanRest xs with ⟨r1, evs1⟩
      simp only [scanRest, hx, if_true, hp] at h
      obtain ⟨h1, h2⟩ := Prod.mk.injEq .. ▸ h
      rw [← h2]
      intro hmem
      rcases List.mem_cons.1 hmem with hl | hr
      · cases hl
      · exact ih r1 evs1 hp c hr
    · simp only [scanRest, hx, if_false, Bool.false_eq_true] at h
      obtain ⟨h1, h2⟩ := Prod.mk.injEq .. ▸ h
      rw [← h2]
      intro hmem
      rcases List.mem_singleton.1 hmem with h3
      cases h3

theorem continueStep_advanced_spec (win : ActionClass) (st st2 : NavState)
    (evs : List UIEvent)
    (h : continueStep win st = (StepOut.advanced st2, evs)) :
    st2.actions.head? = some st2.current
      ∧ List.Sublist st2.actions st.actions := by
  by_cases hmc : win.mayContinue = false
  · simp [continueStep, hmc] at h
  · by_cases hlen : st.actions.length = 1
    · simp [continueStep, hmc, hlen] at h
    · rcases hA : afterSkip st with _ | ⟨a0, rest⟩
      · simp [continueStep, hmc, hlen, hA] at h
      · rcases hS : scanRest rest with ⟨r1, evs1⟩
        rcases r1 with _ | ⟨cand, rem⟩
        · simp [continueStep, hmc, hlen, hA, hS] at h
        · by_cases hshow : cand.showable = false
          · simp [continueStep, hmc, hlen, hA, hS, hshow] at h
          · have hval : continueStep win st
                = (StepOut.advanced { current := cand, actions := rem },
                  evs1 ++ [UIEvent.displayed cand]) := by
              simp [continueStep, hmc, hlen, hA, hS, hshow]
            obtain ⟨h1, h2⟩ := Prod.mk.injEq .. ▸ (hval.symm.trans h)
            injection h1 with h3
            rw [← h3]
            have hsc := scanRest_some rest rem cand evs1 hS
            refine ⟨hsc.1, ?_⟩
            have hs1 : List.Sublist rem (a0 :: rest) :=
              (hsc.2.sublist).cons a0
            have hs2 : List.Sublist (afterSkip st) st.actions :=
              afterSkip_sublist st
            rw [hA] at hs2
            exact hs1.trans hs2

theorem continueStep_recursed_spec (win : ActionClass) (st : NavState)
    (w2 : ActionClass) (st2 : NavState) (evs : List UIEvent)
    (h : continueStep win st = (StepOut.recursed w2 st2, evs)) :
    List.Sublist st2.actions st.actions
      ∧ st2.actions.length < st.actions.length
      ∧ st2.actions.head? = some w2
      ∧ st2.current = st.current := by
  by_cases hmc : win.mayContinue = false
  · simp [continueStep, hmc] at h
  · by_cases hlen : st.actions.length = 1
    · simp [continueStep, hmc, hlen] at h
    · rcases hA : afterSkip st with _ | ⟨a0, rest⟩
      · simp [continueStep, hmc, hlen, hA] at h
      · rcases hS : scanRest rest with ⟨r1, evs1⟩
        rcases r1 with _ | ⟨cand, rem⟩
        · simp [continueStep, hmc, hlen, hA, hS] at h
        · by_cases hshow : cand.showable = false
          · have hval : continueStep win st
                = (StepOut.recursed cand { current := st.current, actions := rem },
                  evs1 ++ [UIEvent.hidden st.current]) := by
              simp [continueStep, hmc, hlen, hA, hS, hshow]
            obtain ⟨h1, h2⟩ := Prod.mk.injEq .. ▸ (hval.symm.trans h)
            injection h1 with hw hst
            rw [← hst, ← hw]
            have hsc := scanRest_some rest rem cand evs1 hS
            have hs1 : List.Sublist rem (a0 :: rest) :=
              (hsc.2.sublist).cons a0
            have hs2 : List.Sublist (afterSkip st) st.actions :=
              afterSkip_sublist st
            rw [hA] at hs2
            have hlen2 : rem.length < st.actions.length := by
              have l1 : rem.length ≤ rest.length := hsc.2.length_le
              have l2 : (a0 :: rest).length ≤ st.actions.length := hs2.length_le
              simp only [List.length_cons] at l2
              omega
            exact ⟨hs1.trans hs2, hlen2, hsc.1, rfl⟩
          · simp [continueStep, hmc, hlen, hA, hS, hshow] at h

theorem runContinueF_advanced_spec :
    ∀ (n : Nat) (win : ActionClass) (st st2 : NavState) (evs : List UIEvent),
      runContinueF n win st = some (ContinueResult.advanced st2, evs) →
      st2.actions.head? = some st2.current
        ∧ List.Sublist st2.actions st.actions := by
  intro n
  induction n with
  | zero => intro win st st2 evs h; simp [runContinueF] at h
  | succ n ih =>
    intro win st st2 evs h
    rcases hs : continueStep win st with ⟨out, evs1⟩
    cases out with
    | noOp => simp [runContinueF, hs] at h
    | terminated => simp [runContinueF, hs] at h
    | indexError => simp [runContinueF, hs] at h
    | advanced st3 =>
      simp only [runContinueF, hs, Option.some.injEq, Prod.mk.injEq,
        ContinueResult.advanced.injEq] at h
      obtain ⟨h1, h2⟩ := h
      rw [← h1]
      exact continueStep_advanced_spec win st st3 evs1 hs
    | recursed w2 st3 =>
      simp only [runContinueF, hs] at h
      rcases hr : runContinueF n w2 st3 with _ | ⟨r, evs2⟩
      · rw [hr] at h
        simp at h
      · rw [hr] at h
        simp only [Option.some.injEq, Prod.mk.injEq] at h
        obtain ⟨h1, h2⟩ := h
        have hrec := ih w2 st3 st2 evs2 (by rw [hr, h1])
        have hstep := continueStep_recursed_spec win st w2 st3 evs1 hs
        exact ⟨hrec.1, hrec.2.trans hstep.1⟩

theorem runContinueF_total :
    ∀ (n : Nat) (win : ActionClass) (st : NavState),
      st.actions.length < n → (runContinueF n win st).isSome = true := by
  intro n
  induction n with
  | zero => intro win st h; exact absurd h (Nat.not_lt_zero _)
  | succ n ih =>
    intro win st h
    rcases hs : continueStep win st with ⟨out, evs1⟩
    cases out with
    | noOp => simp [runContinueF, hs]
    | terminated => simp [runContinueF, hs]
    | indexError => simp [runContinueF, hs]
    | advanced st3 => simp [runContinueF, hs]
    | recursed w2 st3 =>
      have hlt := (continueStep_recursed_spec win st w2 st3 evs1 hs).2.1
      have hst3 := ih w2 st3 (by omega)
      simp only [runContinueF, hs]
      rcases hr : runContinueF n w2 st3 with _ | ⟨r, evs2⟩
      · rw [hr] at hst3
        simp at hst3
      · simp

/-- The complete handler never fails for lack of fuel: the fuel
`st.actions.length + 1` used by `runContinue` always suffices, since each
recursion strictly shortens the action list. -/
theorem runContinue_total (win : ActionClass) (st : NavState) :
    (runContinue win st).isSome = true :=
  runContinueF_total (st.actions.length + 1) win st (Nat.lt_succ_self _)

theorem runStart_started_head :
    ∀ (l : List ActionClass) (st : NavState) (evs : List UIEvent),
      runStart l = (RunResult.started st, evs) →
      st.actions.head? = some st.current := by
  intro l
  induction l with
  | nil => intro st evs h; simp [runStart] at h
  | cons c rest ih =>
    intro st evs h
    by_cases hc : declines c = true
    · cases rest with
      | nil => simp [runStart, hc] at h
      | cons r rs =>
        rcases hp : runStart (r :: rs) with ⟨out, evs1⟩
        simp only [runStart, hc, if_true, hp] at h
        obtain ⟨h1, h2⟩ := Prod.mk.injEq .. ▸ h
        exact ih st evs1 (by rw [hp, h1])
    · have hval : runStart (c :: rest)
          = (RunResult.started { current := c, actions := c :: rest },
            [UIEvent.instantiated c, UIEvent.displayed c]) := by
        rw [runStart.eq_def]
        simp [hc]
      obtain ⟨h1, h2⟩ := Prod.mk.injEq .. ▸ (hval.symm.trans h)
      injection h1 with h3
      rw [← h3]
      rfl

/-! ### Concrete action classes for witnesses and failing inputs.
All are ordinary Python classes, so their metaclass is `type` and their
`__class__.__name__` is the string "type". -/

/-- An instantiable, showable action class named "A" that allows continue. -/
def actA : ActionClass :=
  { name := "A", metaName := "type", standalone := false, completed := false,
    showable := true, mayContinue := true, skipTo := none }

/-- Like `actA`, but its instance sets `skipTo` to the class name "C". -/
def actASkipC : ActionClass := { actA with skipTo := some "C" }

/-- An instantiable, showable action class named "B". -/
def actB : ActionClass := { actA with name := "B" }

/-- An instantiable, showable action class named "C". -/
def actC : ActionClass := { actA with name := "C" }

/-- A standalone spoke that is already completed: `_instantiateAction`
discards its instance and returns `None`. -/
def actDecl : ActionClass :=
  { actA with name := "D", standalone := true, completed := true }

/-- An instantiable action class whose instance is not showable. -/
def actHide : ActionClass := { actA with name := "N", showable := false }

/-- C6: the startup loop instantiates action classes from the front of the
list, silently discarding every one that refuses instantiation (standalone
and already completed), and the first surviving instance becomes the
current displayed action, its class remaining at index 0. -/
theorem runStart_skips_declined (pre : List ActionClass) (c : ActionClass)
    (post : List ActionClass)
    (hpre : ∀ x ∈ pre, declines x = true) (hc : declines c = false) :
    runStart (pre ++ c :: post)
      = (RunResult.started { current := c, actions := c :: post },
        pre.map UIEvent.instantiated
          ++ [UIEvent.instantiated c, UIEvent.displayed c]) := by
  induction pre with
  | nil =>
    rw [List.nil_append, runStart.eq_def]
    simp [hc]
  | cons p pre2 ih =>
    have hp : declines p = true := hpre p (List.mem_cons_self p pre2)
    have ih2 := ih (fun x hx => hpre x (List.mem_cons_of_mem p hx))
    rcases hq : pre2 ++ c :: post with _ | ⟨q, qs⟩
    · exact absurd hq (by simp)
    · have hval : runStart (p :: (pre2 ++ c :: post))
          = ((runStart (pre2 ++ c :: post)).1,
            UIEvent.instantiated p :: (runStart (pre2 ++ c :: post)).2) := by
        rw [hq, runStart.eq_def]
        simp [hp]
      rw [List.cons_append, hval, ih2]
      simp

/-- Witness for C6 at the spec's own example: for the list [D, B, C] where
D declines instantiation, the sequencer starts on B. -/
theorem runStart_skips_declined_witness :
    declines actDecl = true ∧ declines actB = false
      ∧ runStart [actDecl, actB, actC]
        = (RunResult.started { current := actB, actions := [actB, actC] },
          [UIEvent.instantiated actDecl, UIEvent.instantiated actB,
            UIEvent.displayed actB]) := by
  refine ⟨rfl, rfl, ?_⟩
  have h := runStart_skips_declined [actDecl] actB [actC]
    (fun x hx => by rw [List.mem_singleton] at hx; subst hx; rfl) rfl
  simpa using h

/-- C2 (the code evaluated at the failing input): the skip-to scan compares
each remaining entry's `__class__.__name__` — but the entries of
`self._actions` are classes, so that attribute is the METAclass name
("type" for these ordinary classes), never the class's own `__name__`.
With `A.skipTo = "C"` on the list [A, B, C], the scan therefore finds no
match (although the entry named "C" is present), the list is left
uncollapsed, and navigation advances sequentially to B instead of skipping
to C. -/
theorem skipTo_metaclass_name_mismatch :
    actASkipC.skipTo = some "C" ∧ actC.name = "C"
      ∧ findMatchSuffix "C" [actB, actC] = none
      ∧ skipCollapse "C" [actASkipC, actB, actC] = [actASkipC, actB, actC]
      ∧ runContinue actASkipC
          { current := actASkipC, actions := [actASkipC, actB, actC] }
        = some (ContinueResult.advanced { current := actB, actions := [actB, actC] },
          [UIEvent.instantiated actB, UIEvent.displayed actB]) := by
  refine ⟨rfl, rfl, by decide, by decide, by decide⟩

/-- C7 (the code evaluated at the failing inputs): when the sequencer
searches for an instantiable action and runs out of entries, it does not
terminate silently — it over-indexes.  `run` on an initially empty list
hits `self._actions[0]` before any emptiness check; the continue handler
on [A, D] where D declines instantiation pops D, leaving only the current
action, and then re-reads `self._actions[1]`, which is out of range (the
`if not self._actions: sys.exit(0)` guard can never fire first, since
index 0 is never popped in that loop). -/
theorem exhausted_actions_index_error :
    runStart [] = (RunResult.indexError, [])
      ∧ runContinue actA { current := actA, actions := [actA, actDecl] }
        = some (ContinueResult.indexError, [UIEvent.instantiated actDecl]) := by
  refine ⟨rfl, by decide⟩

/-- C8: a continue signal (whose window allows continuing) with exactly one
remaining action quits the main loop — treated as successful completion —
and the handler instantiates no further screens (it emits no events at
all). -/
theorem last_action_continue_terminates (win : ActionClass) (st : NavState)
    (hmc : win.mayContinue = true) (hlen : st.actions.length = 1) :
    runContinue win st = some (ContinueResult.terminated, []) := by
  have hstep : continueStep win st = (StepOut.terminated, []) := by
    simp [continueStep, hmc, hlen]
  simp [runContinue, runContinueF, hlen, hstep]

/-- Witness for C8 at a concrete input. -/
theorem last_action_continue_terminates_witness :
    actA.mayContinue = true ∧ ([actA] : List ActionClass).length = 1
      ∧ runContinue actA { current := actA, actions := [actA] }
        = some (ContinueResult.terminated, []) :=
  ⟨rfl, rfl,
    last_action_continue_terminates actA
      { current := actA, actions := [actA] } rfl rfl⟩

/-- C9: the startup loop establishes, and every completed continue
transition re-establishes, the invariant that the entry at index 0 of the
action list is the class of the current action; moreover a continue
transition only removes entries (front pops and skip-to splices), so the
resulting list is a sublist of the previous one in the original order. -/
theorem index_zero_invariant :
    (∀ (l : List ActionClass) (st : NavState) (evs : List UIEvent),
        runStart l = (RunResult.started st, evs) →
        st.actions.head? = some st.current)
      ∧ (∀ (win : ActionClass) (st st2 : NavState) (evs : List UIEvent),
        runContinue win st = some (ContinueResult.advanced st2, evs) →
        st2.actions.head? = some st2.current
          ∧ List.Sublist st2.actions st.actions) :=
  ⟨runStart_started_head,
    fun win st st2 evs h =>
      runContinueF_advanced_spec (st.actions.length + 1) win st st2 evs h⟩

/-- Witness for C9 at a concrete input: a continue from B on [B, C]. -/
theorem index_zero_invariant_witness :
    runContinue actB { current := actB, actions := [actB, actC] }
      = some (ContinueResult.advanced { current := actC, actions := [actC] },
        [UIEvent.instantiated actC, UIEvent.displayed actC])
      ∧ ([actC] : List ActionClass).head? = some actC
      ∧ List.Sublist [actC] [actB, actC] := by
  have h1 : runContinue actB { current := actB, actions := [actB, actC] }
      = some (ContinueResult.advanced { current := actC, actions := [actC] },
        [UIEvent.instantiated actC, UIEvent.displayed actC]) := by decide
  have h2 := index_zero_invariant.2 actB
    { current := actB, actions := [actB, actC] }
    { current := actC, actions := [actC] } _ h1
  exact ⟨h1, h2.1, h2.2⟩

/-- C10: when the instantiated next candidate is not showable, the handler
hides the candidate's predecessor (the currently displayed action), pops
the front of the action list — leaving the candidate's class at index 0,
which is what the spec calls the current action — and tail-recurses into
the continue handler with the candidate as the new signal source, without
having displayed the candidate (the emitted events contain no display). -/
theorem not_showable_hides_and_recurses (win : ActionClass) (st : NavState)
    (a0 : ActionClass) (rest : List ActionClass) (cand : ActionClass)
    (rem : List ActionClass) (evs1 : List UIEvent)
    (hmc : win.mayContinue = true)
    (hlen : st.actions.length ≠ 1)
    (hsplit : afterSkip st = a0 :: rest)
    (hscan : scanRest rest = (some (cand, rem), evs1))
    (hshow : cand.showable = false) :
    continueStep win st
        = (StepOut.recursed cand { current := st.current, actions := rem },
          evs1 ++ [UIEvent.hidden st.current])
      ∧ rem.head? = some cand
      ∧ ∀ c : ActionClass,
          UIEvent.displayed c ∉ evs1 ++ [UIEvent.hidden st.current] := by
  refine ⟨?_, (scanRest_some rest rem cand evs1 hscan).1, ?_⟩
  · simp [continueStep, hmc, hlen, hsplit, hscan, hshow]
  · intro c hmem
    rcases List.mem_append.1 hmem with h1 | h2
    · exact scanRest_no_displayed rest (some (cand, rem)) evs1 hscan c h1
    · exact UIEvent.noConfusion (List.mem_singleton.1 h2)

/-- Witness for C10 at a concrete input: continue from A on [A, N, C]
where N instantiates but is not showable. -/
theorem not_showable_hides_and_recurses_witness :
    continueStep actA { current := actA, actions := [actA, actHide, actC] }
        = (StepOut.recursed actHide { current := actA, actions := [actHide, actC] },
          [UIEvent.instantiated actHide, UIEvent.hidden actA])
      ∧ ([actHide, actC] : List ActionClass).head? = some actHide := by
  have h := not_showable_hides_and_recurses actA
    { current := actA, actions := [actA, actHide, actC] }
    actA [actHide, actC] actHide [actHide, actC]
    [UIEvent.instantiated actHide] rfl (by decide) (by decide) (by decide) rfl
  exact ⟨h.1, h.2.1⟩
